import Mathlib

/-!
Verification development for the Sentinel AI core ledgers.

Shallow embedding of the two Solidity token contracts (SentinelGold in
contracts/src/SentinelGold.sol, SentinelBond in contracts/src/SentinelBond.sol —
both specialize the same OpenZeppelin ERC20 + faucet + yield design and differ
only in constants) and of the vault contract SentinelVault
(contracts/src/SentinelVault.sol).

Modelling conventions:
- Addresses and uint256 values are `Nat`; address 0 is the ERC20 zero address.
- Solidity `revert` / failing `require` is `Except.error`: a failing call
  returns no state, which is exactly the EVM all-or-nothing semantics.
- Checked subtraction that Solidity 0.8 would revert on (panic 0x11) is
  guarded explicitly and surfaces as `Err.arithUnderflow`.
- Balances are `Nat`, so "no negative balance" holds by construction; every
  subtraction in the source is preceded by the same sufficiency check as in
  the Solidity code, so no truncated subtraction is ever reached on the
  success path.
- `totalIssued`, `totalBurned` and `holders` are ghost fields used only to
  state the conservation invariant; `holders` over-approximates the set of
  addresses with a possibly non-zero balance.
-/

set_option maxHeartbeats 1000000

namespace Sentinel

/-- Error kinds, one per distinct revert reason in the source contracts. -/
inductive Err where
  | invalidSender
  | invalidReceiver
  | invalidApprover
  | invalidSpender
  | insufficientBalance
  | insufficientAllowance
  | cooldownActive
  | noYieldDue
  | notOwner
  | notAuthorized
  | exceedsSpendingPolicy
  | insufficientCustody
  | invalidAmount
  | arithUnderflow
deriving DecidableEq, Repr

/-- Constant `FAUCET_COOLDOWN = 1 hours` in both token contracts. -/
def FAUCET_COOLDOWN : Nat := 3600

/-- Constant `BPS_DENOMINATOR = 10000` in both token contracts. -/
def BPS_DENOMINATOR : Nat := 10000

/-- One hour in seconds, the accrual window divisor in `pendingYield`. -/
def ONE_HOUR : Nat := 3600

/-- Constant `INVISIBLE_MODE_THRESHOLD = 10 * 10**18` in SentinelVault. -/
def INVISIBLE_MODE_THRESHOLD : Nat := 10 * 10 ^ 18

/-- Value `type(uint256).max`, the OpenZeppelin infinite-allowance sentinel. -/
def MAX_UINT256 : Nat := 2 ^ 256 - 1

/-- Per-asset constants: the two token contracts share one design and differ
only in these values. -/
structure TokenCfg where
  faucetAmount : Nat
  yieldRateBps : Nat
deriving DecidableEq, Repr

/-- SentinelGold: `FAUCET_AMOUNT = 100 * 10**18`, `YIELD_RATE_BPS = 50`. -/
def goldCfg : TokenCfg := { faucetAmount := 100 * 10 ^ 18, yieldRateBps := 50 }

/-- SentinelBond: `FAUCET_AMOUNT = 1000 * 10**18`, `YIELD_RATE_BPS = 500`. -/
def bondCfg : TokenCfg := { faucetAmount := 1000 * 10 ^ 18, yieldRateBps := 500 }

/-- State of one token contract instance (ERC20 storage plus the contract's own
mappings). `totalIssued`, `totalBurned`, `holders` are ghost fields for the
conservation invariant and do not influence any operation's behavior. -/
structure TokenState where
  balances : Nat → Nat
  totalSupply : Nat
  allowances : Nat → Nat → Nat
  lastFaucetClaim : Nat → Nat
  lastYieldClaim : Nat → Nat
  depositTimestamp : Nat → Nat
  tokenOwner : Nat
  totalIssued : Nat
  totalBurned : Nat
  holders : Finset Nat

/-- First half of OpenZeppelin `ERC20._update`: debit the sender (or grow
supply on mint). The sufficiency check is done by the caller `tokenUpdate`. -/
def debitSide (s : TokenState) (src value : Nat) : TokenState :=
  if src = 0 then
    { s with totalSupply := s.totalSupply + value, totalIssued := s.totalIssued + value }
  else
    { s with balances := Function.update s.balances src (s.balances src - value) }

/-- Second half of OpenZeppelin `ERC20._update`: credit the receiver (or
shrink supply on burn). -/
def creditSide (s : TokenState) (dst value : Nat) : TokenState :=
  if dst = 0 then
    { s with totalSupply := s.totalSupply - value, totalBurned := s.totalBurned + value }
  else
    { s with balances := Function.update s.balances dst (s.balances dst + value),
             holders := insert dst s.holders }

/-- The `_update` override in SentinelGold/SentinelBond: after the ERC20 move,
set the receiver's deposit timestamp if it is unset. -/
def hookSide (s : TokenState) (dst now : Nat) : TokenState :=
  if dst ≠ 0 ∧ s.depositTimestamp dst = 0 then
    { s with depositTimestamp := Function.update s.depositTimestamp dst now }
  else s

/-- Both halves of `ERC20._update(from, to, value)` together, including the contract's
deposit-timestamp override; fails with `insufficientBalance` exactly when the
OpenZeppelin code reverts with `ERC20InsufficientBalance`. -/
def tokenUpdate (s : TokenState) (src dst value now : Nat) : Except Err TokenState :=
  if src ≠ 0 ∧ s.balances src < value then
    Except.error Err.insufficientBalance
  else
    Except.ok (hookSide (creditSide (debitSide s src value) dst value) dst now)

/-- Function `ERC20._transfer`: zero-address checks, then `_update`. -/
def erc20Transfer (s : TokenState) (src dst value now : Nat) : Except Err TokenState :=
  if src = 0 then Except.error Err.invalidSender
  else if dst = 0 then Except.error Err.invalidReceiver
  else tokenUpdate s src dst value now

/-- Function `ERC20._spendAllowance(owner, spender, value)` (infinite allowance is the
`type(uint256).max` sentinel, as in OpenZeppelin). -/
def spendAllowance (s : TokenState) (ownr spender value : Nat) : Except Err TokenState :=
  if s.allowances ownr spender = MAX_UINT256 then Except.ok s
  else if s.allowances ownr spender < value then Except.error Err.insufficientAllowance
  else Except.ok { s with allowances := fun a b =>
    if a = ownr ∧ b = spender then s.allowances ownr spender - value else s.allowances a b }

/-- Function `ERC20.transferFrom(from, to, value)` with `msg.sender = caller`. -/
def transferFrom (s : TokenState) (caller src dst value now : Nat) : Except Err TokenState :=
  match spendAllowance s src caller value with
  | Except.error e => Except.error e
  | Except.ok s1 => erc20Transfer s1 src dst value now

/-- Function `ERC20._mint(to, value)`. -/
def mintInternal (s : TokenState) (dst value now : Nat) : Except Err TokenState :=
  if dst = 0 then Except.error Err.invalidReceiver
  else tokenUpdate s 0 dst value now

/-- Function `mint(to, amount)` — `onlyOwner` privileged issuance. -/
def mint (s : TokenState) (caller dst value now : Nat) : Except Err TokenState :=
  if caller ≠ s.tokenOwner then Except.error Err.notOwner
  else mintInternal s dst value now

/-- Function `ERC20Burnable.burn(value)` with `msg.sender = caller`. -/
def burn (s : TokenState) (caller value now : Nat) : Except Err TokenState :=
  if caller = 0 then Except.error Err.invalidSender
  else tokenUpdate s caller 0 value now

/-- Function `ERC20.approve(spender, value)` with `msg.sender = caller`. -/
def approve (s : TokenState) (caller spender value : Nat) : Except Err TokenState :=
  if caller = 0 then Except.error Err.invalidApprover
  else if spender = 0 then Except.error Err.invalidSpender
  else Except.ok { s with allowances :=
    fun a b => if a = caller ∧ b = spender then value else s.allowances a b }

/-- Function `claimFaucet()` with `msg.sender = caller` at time `now`: cooldown gate,
then update both timestamps, then mint the fixed faucet amount. -/
def claimFaucet (cfg : TokenCfg) (s : TokenState) (caller now : Nat) : Except Err TokenState :=
  if now < s.lastFaucetClaim caller + FAUCET_COOLDOWN then
    Except.error Err.cooldownActive
  else
    mintInternal
      { s with
        lastFaucetClaim := Function.update s.lastFaucetClaim caller now,
        depositTimestamp := Function.update s.depositTimestamp caller now }
      caller cfg.faucetAmount now

/-- The ternary in `pendingYield`:
`lastYieldClaim[user] > depositTimestamp[user] ? lastYieldClaim[user] : depositTimestamp[user]`. -/
def yieldStart (s : TokenState) (user : Nat) : Nat :=
  if s.lastYieldClaim user > s.depositTimestamp user
    then s.lastYieldClaim user else s.depositTimestamp user

/-- Function `pendingYield(user)` at time `now`; `none` models the checked-arithmetic
revert that `block.timestamp - timeHeld`'s subtraction would raise if the
accrual start were in the future (never reached on-chain). -/
def pendingYield (cfg : TokenCfg) (s : TokenState) (user now : Nat) : Option Nat :=
  if s.depositTimestamp user = 0 ∨ s.balances user = 0 then some 0
  else if now < yieldStart s user then none
  else some (s.balances user * cfg.yieldRateBps * (now - yieldStart s user)
    / (ONE_HOUR * BPS_DENOMINATOR))

/-- Function `claimYield()` with `msg.sender = caller` at time `now`. -/
def claimYield (cfg : TokenCfg) (s : TokenState) (caller now : Nat) : Except Err TokenState :=
  match pendingYield cfg s caller now with
  | none => Except.error Err.arithUnderflow
  | some y =>
    if y = 0 then Except.error Err.noYieldDue
    else
      mintInternal { s with lastYieldClaim := Function.update s.lastYieldClaim caller now }
        caller y now

/-- The valid public operations on one token ledger instance. -/
inductive TokenOp where
  | mint (caller dst value : Nat)
  | claimFaucet (caller : Nat)
  | claimYield (caller : Nat)
  | transfer (caller dst value : Nat)
  | transferFrom (caller src dst value : Nat)
  | burn (caller value : Nat)
  | approve (caller spender value : Nat)
deriving DecidableEq, Repr

/-- Dispatch one operation at time `now`. -/
def applyTokenOp (cfg : TokenCfg) (s : TokenState) (now : Nat) : TokenOp → Except Err TokenState
  | TokenOp.mint caller dst value => mint s caller dst value now
  | TokenOp.claimFaucet caller => claimFaucet cfg s caller now
  | TokenOp.claimYield caller => claimYield cfg s caller now
  | TokenOp.transfer caller dst value => erc20Transfer s caller dst value now
  | TokenOp.transferFrom caller src dst value => transferFrom s caller src dst value now
  | TokenOp.burn caller value => burn s caller value now
  | TokenOp.approve caller spender value => approve s caller spender value

/-- Run one operation with EVM revert semantics: a failing operation leaves
the state unchanged. -/
def tryTokenOp (cfg : TokenCfg) (s : TokenState) (now : Nat) (op : TokenOp) : TokenState :=
  match applyTokenOp cfg s now op with
  | Except.ok s' => s'
  | Except.error _ => s

/-- Run a timestamped operation sequence. -/
def applyTokenOps (cfg : TokenCfg) : List (Nat × TokenOp) → TokenState → TokenState
  | [], s => s
  | (now, op) :: rest, s => applyTokenOps cfg rest (tryTokenOp cfg s now op)

/-- State right after the constructor: the initial supply is minted to the
deployer (with the `_update` hook setting the deployer's deposit timestamp). -/
def initTokenState (deployer deployTime supply0 : Nat) : TokenState :=
  { balances := Function.update (fun _ => 0) deployer supply0
    totalSupply := supply0
    allowances := fun _ _ => 0
    lastFaucetClaim := fun _ => 0
    lastYieldClaim := fun _ => 0
    depositTimestamp := Function.update (fun _ => 0) deployer deployTime
    tokenOwner := deployer
    totalIssued := supply0
    totalBurned := 0
    holders := {deployer} }

/-- Conservation invariant of one token ledger: `holders` covers every address
with a non-zero balance, and the balances held sum to issued minus burned. -/
def Conserved (s : TokenState) : Prop :=
  (∀ a, a ∉ s.holders → s.balances a = 0) ∧
  Finset.sum s.holders s.balances + s.totalBurned = s.totalIssued

/-- Per-user record held by the vault; the source's struct is renamed to
`UserAccount` here, its `sGoldBalance`/`sBondBalance`/... fields kept. -/
structure UserAccount where
  sGoldBalance : Nat
  sBondBalance : Nat
  spendingAllowance : Nat
  totalDeposited : Nat
  totalYieldEarned : Nat
  autoCompound : Bool
  invisibleMode : Bool
deriving DecidableEq, Repr

/-- One entry of the append-only `paymentHistory`. The source stores
`tokenUsed` as the token's address; here it is the gold/bond choice. -/
structure PaymentRecord where
  user : Nat
  merchant : Nat
  amount : Nat
  usedGold : Bool
  timestamp : Nat
  memo : String
deriving DecidableEq, Repr

/-- SentinelVault storage; `accounts` models the source's per-user mapping. -/
structure VaultState where
  accounts : Nat → UserAccount
  authorizedAgents : Nat → Bool
  paymentHistory : List PaymentRecord
  totalValueLocked : Nat
  vaultOwner : Nat

/-- Combined system state: the vault plus the two token ledger instances it
holds references to; `vaultAddr` is `address(this)` of the vault. -/
structure Sys where
  vault : VaultState
  gold : TokenState
  bond : TokenState
  vaultAddr : Nat

/-- The `onlyAuthorizedAgent` modifier condition. -/
def isAuthorized (v : VaultState) (caller : Nat) : Prop :=
  v.authorizedAgents caller = true ∨ caller = v.vaultOwner

instance (v : VaultState) (caller : Nat) : Decidable (isAuthorized v caller) := by
  unfold isAuthorized; infer_instance

/-- Function `depositGold(amount)` with `msg.sender = caller`: pull tokens from the
caller into the vault's token account via `transferFrom`, then credit the
caller's custody record and the aggregate locked total. -/
def depositGold (sys : Sys) (caller amount now : Nat) : Except Err Sys :=
  if amount = 0 then Except.error Err.invalidAmount
  else
    match transferFrom sys.gold sys.vaultAddr caller sys.vaultAddr amount now with
    | Except.error e => Except.error e
    | Except.ok g =>
      Except.ok { sys with
        gold := g,
        vault := { sys.vault with
          accounts := Function.update sys.vault.accounts caller
            { sys.vault.accounts caller with
                sGoldBalance := (sys.vault.accounts caller).sGoldBalance + amount,
                totalDeposited := (sys.vault.accounts caller).totalDeposited + amount },
          totalValueLocked := sys.vault.totalValueLocked + amount } }

/-- Function `depositBond(amount)`, same shape against the bond ledger. -/
def depositBond (sys : Sys) (caller amount now : Nat) : Except Err Sys :=
  if amount = 0 then Except.error Err.invalidAmount
  else
    match transferFrom sys.bond sys.vaultAddr caller sys.vaultAddr amount now with
    | Except.error e => Except.error e
    | Except.ok b =>
      Except.ok { sys with
        bond := b,
        vault := { sys.vault with
          accounts := Function.update sys.vault.accounts caller
            { sys.vault.accounts caller with
                sBondBalance := (sys.vault.accounts caller).sBondBalance + amount,
                totalDeposited := (sys.vault.accounts caller).totalDeposited + amount },
          totalValueLocked := sys.vault.totalValueLocked + amount } }

/-- Function `withdrawGold(amount)` with `msg.sender = caller`: custody check, debit,
decrement the locked total (checked subtraction), transfer tokens back. -/
def withdrawGold (sys : Sys) (caller amount now : Nat) : Except Err Sys :=
  if (sys.vault.accounts caller).sGoldBalance < amount then
    Except.error Err.insufficientCustody
  else if sys.vault.totalValueLocked < amount then Except.error Err.arithUnderflow
  else
    match erc20Transfer sys.gold sys.vaultAddr caller amount now with
    | Except.error e => Except.error e
    | Except.ok g =>
      Except.ok { sys with
        gold := g,
        vault := { sys.vault with
          accounts := Function.update sys.vault.accounts caller
            { sys.vault.accounts caller with
                sGoldBalance := (sys.vault.accounts caller).sGoldBalance - amount },
          totalValueLocked := sys.vault.totalValueLocked - amount } }

/-- Function `withdrawBond(amount)`, same shape against the bond ledger. -/
def withdrawBond (sys : Sys) (caller amount now : Nat) : Except Err Sys :=
  if (sys.vault.accounts caller).sBondBalance < amount then
    Except.error Err.insufficientCustody
  else if sys.vault.totalValueLocked < amount then Except.error Err.arithUnderflow
  else
    match erc20Transfer sys.bond sys.vaultAddr caller amount now with
    | Except.error e => Except.error e
    | Except.ok b =>
      Except.ok { sys with
        bond := b,
        vault := { sys.vault with
          accounts := Function.update sys.vault.accounts caller
            { sys.vault.accounts caller with
                sBondBalance := (sys.vault.accounts caller).sBondBalance - amount },
          totalValueLocked := sys.vault.totalValueLocked - amount } }

/-- The spending policy condition checked by `executePayment`. -/
def policyOk (acct : UserAccount) (amount : Nat) : Prop :=
  amount ≤ acct.spendingAllowance ∨
    (acct.invisibleMode = true ∧ amount ≤ INVISIBLE_MODE_THRESHOLD)

instance (acct : UserAccount) (amount : Nat) : Decidable (policyOk acct amount) := by
  unfold policyOk; infer_instance

/-- The custody-debit-plus-token-transfer block of `executePayment` (the
`if (useGold) { ... } else { ... }` statement in the source). -/
def paymentDebitStep (sys : Sys) (user merchant amount : Nat) (useGold : Bool)
    (now : Nat) : Except Err Sys :=
  if useGold then
    if (sys.vault.accounts user).sGoldBalance < amount then
      Except.error Err.insufficientCustody
    else
      match erc20Transfer sys.gold sys.vaultAddr merchant amount now with
      | Except.error e => Except.error e
      | Except.ok g =>
        Except.ok { sys with
          gold := g,
          vault := { sys.vault with
            accounts := Function.update sys.vault.accounts user
              { sys.vault.accounts user with
                  sGoldBalance := (sys.vault.accounts user).sGoldBalance - amount } } }
  else
    if (sys.vault.accounts user).sBondBalance < amount then
      Except.error Err.insufficientCustody
    else
      match erc20Transfer sys.bond sys.vaultAddr merchant amount now with
      | Except.error e => Except.error e
      | Except.ok b =>
        Except.ok { sys with
          bond := b,
          vault := { sys.vault with
            accounts := Function.update sys.vault.accounts user
              { sys.vault.accounts user with
                  sBondBalance := (sys.vault.accounts user).sBondBalance - amount } } }

/-- The tail of `executePayment`: decrement the locked total (checked
subtraction) and append the payment record. -/
def paymentFinishStep (mid : Sys) (user merchant amount : Nat) (useGold : Bool)
    (memoStr : String) (now : Nat) : Except Err Sys :=
  if mid.vault.totalValueLocked < amount then Except.error Err.arithUnderflow
  else
    Except.ok { mid with
      vault := { mid.vault with
        totalValueLocked := mid.vault.totalValueLocked - amount,
        paymentHistory := mid.vault.paymentHistory ++
          [{ user := user, merchant := merchant, amount := amount,
             usedGold := useGold, timestamp := now, memo := memoStr }] } }

/-- Function `executePayment(user, merchant, amount, useGold, memo)` with
`msg.sender = caller` at time `now`. Order of checks and effects follows the
source: agent authorization, spending policy, custody sufficiency + debit +
token transfer, locked-total decrement, history append. -/
def executePayment (sys : Sys) (caller user merchant amount : Nat) (useGold : Bool)
    (memoStr : String) (now : Nat) : Except Err Sys :=
  if ¬ isAuthorized sys.vault caller then Except.error Err.notAuthorized
  else if ¬ policyOk (sys.vault.accounts user) amount then
    Except.error Err.exceedsSpendingPolicy
  else
    match paymentDebitStep sys user merchant amount useGold now with
    | Except.error e => Except.error e
    | Except.ok mid => paymentFinishStep mid user merchant amount useGold memoStr now

/-- Wrapper around `executePayment` with the EVM's revert semantics made
explicit: a failing
call returns the original state together with the error. -/
def executePaymentRun (sys : Sys) (caller user merchant amount : Nat) (useGold : Bool)
    (memoStr : String) (now : Nat) : Sys × Option Err :=
  match executePayment sys caller user merchant amount useGold memoStr now with
  | Except.ok s' => (s', none)
  | Except.error e => (sys, some e)

/-- Function `harvestYield(user, sGoldYield, sBondYield)` with `msg.sender = caller`:
agent-gated; credits custody and the locked total only under auto-compound;
always accumulates `totalYieldEarned`. No token ledger call is made. -/
def harvestYield (sys : Sys) (caller user goldYieldAmt bondYieldAmt : Nat) : Except Err Sys :=
  if ¬ isAuthorized sys.vault caller then Except.error Err.notAuthorized
  else
    let acct := sys.vault.accounts user
    let acct1 :=
      if acct.autoCompound then
        { acct with
          sGoldBalance := acct.sGoldBalance + goldYieldAmt,
          sBondBalance := acct.sBondBalance + bondYieldAmt }
      else acct
    let tvl1 :=
      if acct.autoCompound then sys.vault.totalValueLocked + (goldYieldAmt + bondYieldAmt)
      else sys.vault.totalValueLocked
    let acct2 := { acct1 with
      totalYieldEarned := acct1.totalYieldEarned + (goldYieldAmt + bondYieldAmt) }
    Except.ok { sys with
      vault := { sys.vault with
        accounts := Function.update sys.vault.accounts user acct2,
        totalValueLocked := tvl1 } }

/-! ## Conservation of the token ledger (claim C3) -/

lemma cov_after_debit (B : Nat → Nat) (H : Finset Nat) (hcov : ∀ x, x ∉ H → B x = 0)
    (a v : Nat) : ∀ x, x ∉ H → Function.update B a (B a - v) x = 0 := by
  intro x hx
  rcases eq_or_ne x a with rfl | hne
  · have := hcov x hx
    rw [Function.update_same]
    omega
  · rw [Function.update_noteq hne]
    exact hcov x hx

lemma sum_after_debit (B : Nat → Nat) (H : Finset Nat) (hcov : ∀ x, x ∉ H → B x = 0)
    (a v : Nat) (hv : v ≤ B a) :
    Finset.sum H (Function.update B a (B a - v)) + v = Finset.sum H B := by
  by_cases ha : a ∈ H
  · rw [Finset.sum_update_of_mem ha, Finset.sum_eq_sum_diff_singleton_add ha B]
    omega
  · have h0 : B a = 0 := hcov a ha
    have hv0 : v = 0 := by omega
    subst hv0
    rw [Nat.sub_zero, Function.update_eq_self, Nat.add_zero]

lemma cov_after_credit (B : Nat → Nat) (H : Finset Nat) (hcov : ∀ x, x ∉ H → B x = 0)
    (b v : Nat) : ∀ x, x ∉ insert b H → Function.update B b (B b + v) x = 0 := by
  intro x hx
  rw [Finset.mem_insert, not_or] at hx
  rw [Function.update_noteq hx.1]
  exact hcov x hx.2

lemma sum_after_credit (B : Nat → Nat) (H : Finset Nat) (hcov : ∀ x, x ∉ H → B x = 0)
    (b v : Nat) :
    Finset.sum (insert b H) (Function.update B b (B b + v)) = Finset.sum H B + v := by
  by_cases hb : b ∈ H
  · rw [Finset.insert_eq_of_mem hb, Finset.sum_update_of_mem hb,
      Finset.sum_eq_sum_diff_singleton_add hb B]
    omega
  · rw [Finset.sum_insert hb, Function.update_same]
    have hcongr : Finset.sum H (Function.update B b (B b + v)) = Finset.sum H B := by
      apply Finset.sum_congr rfl
      intro x hx
      exact Function.update_noteq (by rintro rfl; exact hb hx) _ _
    rw [hcongr]
    have h0 : B b = 0 := hcov b hb
    omega

lemma conserved_hookSide (s : TokenState) (dst now : Nat) (h : Conserved s) :
    Conserved (hookSide s dst now) := by
  unfold hookSide
  split
  · exact h
  · exact h

lemma debitSide_zero (s : TokenState) (value : Nat) :
    debitSide s 0 value =
      { s with totalSupply := s.totalSupply + value, totalIssued := s.totalIssued + value } := by
  simp [debitSide]

lemma debitSide_nonzero (s : TokenState) (src value : Nat) (h : src ≠ 0) :
    debitSide s src value =
      { s with balances := Function.update s.balances src (s.balances src - value) } := by
  simp [debitSide, h]

lemma creditSide_zero (s : TokenState) (value : Nat) :
    creditSide s 0 value =
      { s with totalSupply := s.totalSupply - value, totalBurned := s.totalBurned + value } := by
  simp [creditSide]

lemma creditSide_nonzero (s : TokenState) (dst value : Nat) (h : dst ≠ 0) :
    creditSide s dst value =
      { s with balances := Function.update s.balances dst (s.balances dst + value),
               holders := insert dst s.holders } := by
  simp [creditSide, h]

lemma conserved_move (s : TokenState) (src dst value : Nat)
    (hguard : src = 0 ∨ value ≤ s.balances src) (h : Conserved s) :
    Conserved (creditSide (debitSide s src value) dst value) := by
  obtain ⟨hcov, hsum⟩ := h
  by_cases hs : src = 0
  · subst hs
    rw [debitSide_zero]
    by_cases hd : dst = 0
    · subst hd
      rw [creditSide_zero]
      constructor
      · exact hcov
      · show Finset.sum s.holders s.balances + (s.totalBurned + value)
          = s.totalIssued + value
        omega
    · rw [creditSide_nonzero _ _ _ hd]
      constructor
      · exact cov_after_credit _ _ hcov _ _
      · show Finset.sum (insert dst s.holders)
            (Function.update s.balances dst (s.balances dst + value))
            + s.totalBurned = s.totalIssued + value
        rw [sum_after_credit _ _ hcov]
        omega
  · have hv : value ≤ s.balances src := by tauto
    rw [debitSide_nonzero _ _ _ hs]
    by_cases hd : dst = 0
    · subst hd
      rw [creditSide_zero]
      constructor
      · exact cov_after_debit _ _ hcov _ _
      · show Finset.sum s.holders (Function.update s.balances src (s.balances src - value))
            + (s.totalBurned + value) = s.totalIssued
        have := sum_after_debit _ _ hcov src value hv
        omega
    · rw [creditSide_nonzero _ _ _ hd]
      constructor
      · exact cov_after_credit _ _ (cov_after_debit _ _ hcov src value) _ _
      · show Finset.sum (insert dst s.holders)
            (Function.update (Function.update s.balances src (s.balances src - value)) dst
              (Function.update s.balances src (s.balances src - value) dst + value))
            + s.totalBurned = s.totalIssued
        rw [sum_after_credit _ _ (cov_after_debit _ _ hcov src value)]
        have := sum_after_debit _ _ hcov src value hv
        omega

lemma conserved_tokenUpdate {s s' : TokenState} {src dst value now : Nat}
    (h : Conserved s) (hok : tokenUpdate s src dst value now = Except.ok s') :
    Conserved s' := by
  unfold tokenUpdate at hok
  split at hok
  · cases hok
  · rename_i hg
    cases hok
    apply conserved_hookSide
    apply conserved_move _ _ _ _ _ h
    by_cases hs : src = 0
    · exact Or.inl hs
    · right
      by_contra hlt
      exact hg ⟨hs, by omega⟩

lemma conserved_mintInternal {s s' : TokenState} {dst value now : Nat}
    (h : Conserved s) (hok : mintInternal s dst value now = Except.ok s') :
    Conserved s' := by
  unfold mintInternal at hok
  split at hok
  · cases hok
  · exact conserved_tokenUpdate h hok

lemma conserved_erc20Transfer {s s' : TokenState} {a b v n : Nat}
    (h : Conserved s) (hok : erc20Transfer s a b v n = Except.ok s') :
    Conserved s' := by
  unfold erc20Transfer at hok
  split at hok
  · cases hok
  · split at hok
    · cases hok
    · exact conserved_tokenUpdate h hok

lemma conserved_spendAllowance {s s' : TokenState} {a b v : Nat}
    (h : Conserved s) (hok : spendAllowance s a b v = Except.ok s') :
    Conserved s' := by
  unfold spendAllowance at hok
  split at hok
  · cases hok
    exact h
  · split at hok
    · cases hok
    · cases hok
      exact h

lemma conserved_mint {s s' : TokenState} {caller dst value now : Nat}
    (h : Conserved s) (hok : mint s caller dst value now = Except.ok s') :
    Conserved s' := by
  unfold mint at hok
  split at hok
  · cases hok
  · exact conserved_mintInternal h hok

lemma conserved_claimFaucet {cfg : TokenCfg} {s s' : TokenState} {caller now : Nat}
    (h : Conserved s) (hok : claimFaucet cfg s caller now = Except.ok s') :
    Conserved s' := by
  unfold claimFaucet at hok
  split at hok
  · cases hok
  · refine conserved_mintInternal ?_ hok
    exact h

lemma conserved_claimYield {cfg : TokenCfg} {s s' : TokenState} {caller now : Nat}
    (h : Conserved s) (hok : claimYield cfg s caller now = Except.ok s') :
    Conserved s' := by
  unfold claimYield at hok
  split at hok
  · cases hok
  · split at hok
    · cases hok
    · refine conserved_mintInternal ?_ hok
      exact h

lemma conserved_transferFrom {s s' : TokenState} {caller src dst value now : Nat}
    (h : Conserved s) (hok : transferFrom s caller src dst value now = Except.ok s') :
    Conserved s' := by
  unfold transferFrom at hok
  split at hok
  · cases hok
  · rename_i s1 hs1
    exact conserved_erc20Transfer (conserved_spendAllowance h hs1) hok

lemma conserved_burn {s s' : TokenState} {caller value now : Nat}
    (h : Conserved s) (hok : burn s caller value now = Except.ok s') :
    Conserved s' := by
  unfold burn at hok
  split at hok
  · cases hok
  · exact conserved_tokenUpdate h hok

lemma conserved_approve {s s' : TokenState} {caller spender value : Nat}
    (h : Conserved s) (hok : approve s caller spender value = Except.ok s') :
    Conserved s' := by
  unfold approve at hok
  split at hok
  · cases hok
  · split at hok
    · cases hok
    · cases hok
      exact h

lemma conserved_applyTokenOp {cfg : TokenCfg} {s s' : TokenState} {now : Nat} {op : TokenOp}
    (h : Conserved s) (hok : applyTokenOp cfg s now op = Except.ok s') :
    Conserved s' := by
  cases op with
  | mint caller dst value => exact conserved_mint h hok
  | claimFaucet caller => exact conserved_claimFaucet h hok
  | claimYield caller => exact conserved_claimYield h hok
  | transfer caller dst value => exact conserved_erc20Transfer h hok
  | transferFrom caller src dst value => exact conserved_transferFrom h hok
  | burn caller value => exact conserved_burn h hok
  | approve caller spender value => exact conserved_approve h hok

lemma conserved_tryTokenOp (cfg : TokenCfg) (s : TokenState) (now : Nat) (op : TokenOp)
    (h : Conserved s) : Conserved (tryTokenOp cfg s now op) := by
  unfold tryTokenOp
  split
  · exact conserved_applyTokenOp h (by assumption)
  · exact h

lemma conserved_applyTokenOps (cfg : TokenCfg) (ops : List (Nat × TokenOp)) :
    ∀ s, Conserved s → Conserved (applyTokenOps cfg ops s) := by
  induction ops with
  | nil => intro s h; exact h
  | cons p rest ih =>
    intro s h
    obtain ⟨now, op⟩ := p
    exact ih _ (conserved_tryTokenOp cfg s now op h)

lemma conserved_init (deployer deployTime supply0 : Nat) :
    Conserved (initTokenState deployer deployTime supply0) := by
  constructor
  · intro a ha
    simp only [initTokenState, Finset.mem_singleton] at ha ⊢
    rw [Function.update_noteq ha]
  · simp [initTokenState]

/-- A full run of one token ledger instance: deploy, then apply a sequence of
timestamped public operations (each with revert-on-failure semantics). -/
def ledgerRun (cfg : TokenCfg) (deployer deployTime supply0 : Nat)
    (ops : List (Nat × TokenOp)) : TokenState :=
  applyTokenOps cfg ops (initTokenState deployer deployTime supply0)

/-- C3: in each Accrual Token Ledger instance, after any sequence of valid
operations (mint, claimFaucet, claimYield, transfer, transferFrom, burn,
approve) from the initial state, the sum of all per-owner balances equals
total issued minus total burned; balances are natural numbers and every
debit is guarded by a sufficiency check, so no operation produces a negative
balance. Since the operation list is arbitrary, this holds at every
observation point. -/
theorem token_conservation (cfg : TokenCfg) (deployer deployTime supply0 : Nat)
    (ops : List (Nat × TokenOp)) :
    Finset.sum (ledgerRun cfg deployer deployTime supply0 ops).holders
        (ledgerRun cfg deployer deployTime supply0 ops).balances
      = (ledgerRun cfg deployer deployTime supply0 ops).totalIssued
        - (ledgerRun cfg deployer deployTime supply0 ops).totalBurned
    ∧ (ledgerRun cfg deployer deployTime supply0 ops).totalBurned
        ≤ (ledgerRun cfg deployer deployTime supply0 ops).totalIssued := by
  unfold ledgerRun
  obtain ⟨hcov, hsum⟩ :=
    conserved_applyTokenOps cfg ops _ (conserved_init deployer deployTime supply0)
  constructor
  · omega
  · omega

/-! ## Component lemmas for successful mints and transfers -/

lemma hookSide_balances (s : TokenState) (dst now : Nat) :
    (hookSide s dst now).balances = s.balances := by
  unfold hookSide
  split <;> rfl

lemma hookSide_lastFaucetClaim (s : TokenState) (dst now : Nat) :
    (hookSide s dst now).lastFaucetClaim = s.lastFaucetClaim := by
  unfold hookSide
  split <;> rfl

lemma hookSide_lastYieldClaim (s : TokenState) (dst now : Nat) :
    (hookSide s dst now).lastYieldClaim = s.lastYieldClaim := by
  unfold hookSide
  split <;> rfl

/-- What a successful internal mint does to each observable component. -/
lemma mintInternal_ok_components {s s' : TokenState} {dst v now : Nat}
    (hok : mintInternal s dst v now = Except.ok s') :
    s'.balances = Function.update s.balances dst (s.balances dst + v)
    ∧ s'.lastFaucetClaim = s.lastFaucetClaim
    ∧ s'.lastYieldClaim = s.lastYieldClaim
    ∧ (s.depositTimestamp dst ≠ 0 → s'.depositTimestamp = s.depositTimestamp)
    ∧ (s.depositTimestamp dst = 0 →
        s'.depositTimestamp = Function.update s.depositTimestamp dst now)
    ∧ dst ≠ 0 := by
  unfold mintInternal at hok
  split at hok
  · cases hok
  · rename_i hdst
    unfold tokenUpdate at hok
    rw [if_neg (by simp)] at hok
    cases hok
    rw [debitSide_zero, creditSide_nonzero _ _ _ hdst]
    refine ⟨?_, ?_, ?_, ?_, ?_, hdst⟩
    · rw [hookSide_balances]
    · rw [hookSide_lastFaucetClaim]
    · rw [hookSide_lastYieldClaim]
    · intro hne
      unfold hookSide
      rw [if_neg (by simp; intro _; exact hne)]
    · intro hzero
      unfold hookSide
      rw [if_pos ⟨hdst, hzero⟩]

lemma debitSide_depositTimestamp (s : TokenState) (a v : Nat) :
    (debitSide s a v).depositTimestamp = s.depositTimestamp := by
  unfold debitSide
  split <;> rfl

lemma creditSide_depositTimestamp (s : TokenState) (b v : Nat) :
    (creditSide s b v).depositTimestamp = s.depositTimestamp := by
  unfold creditSide
  split <;> rfl

lemma hookSide_depositTimestamp_stable (s : TokenState) (dst now u : Nat)
    (hu : s.depositTimestamp u ≠ 0) :
    (hookSide s dst now).depositTimestamp u = s.depositTimestamp u := by
  unfold hookSide
  split
  · rename_i hcond
    have hub : u ≠ dst := by
      intro he
      rw [he] at hu
      exact hu hcond.2
    exact Function.update_noteq hub _ _
  · rfl

/-- The deposit timestamp, once non-zero, is untouched by `_update`. -/
lemma tokenUpdate_depositTimestamp_stable {s s' : TokenState} {a b v n u : Nat}
    (hu : s.depositTimestamp u ≠ 0)
    (hok : tokenUpdate s a b v n = Except.ok s') :
    s'.depositTimestamp u = s.depositTimestamp u := by
  unfold tokenUpdate at hok
  split at hok
  · cases hok
  · cases hok
    have h1 : (creditSide (debitSide s a v) b v).depositTimestamp u
        = s.depositTimestamp u := by
      rw [creditSide_depositTimestamp, debitSide_depositTimestamp]
    have h2 : (creditSide (debitSide s a v) b v).depositTimestamp u ≠ 0 := by
      rw [h1]
      exact hu
    rw [hookSide_depositTimestamp_stable _ _ _ _ h2, h1]

lemma spendAllowance_ok_depositTimestamp {s s' : TokenState} {a b v : Nat}
    (hok : spendAllowance s a b v = Except.ok s') :
    s'.depositTimestamp = s.depositTimestamp := by
  unfold spendAllowance at hok
  split at hok
  · cases hok
    rfl
  · split at hok
    · cases hok
    · cases hok
      rfl

lemma erc20Transfer_depositTimestamp_stable {s s' : TokenState} {a b v n u : Nat}
    (hu : s.depositTimestamp u ≠ 0)
    (hok : erc20Transfer s a b v n = Except.ok s') :
    s'.depositTimestamp u = s.depositTimestamp u := by
  unfold erc20Transfer at hok
  split at hok
  · cases hok
  · split at hok
    · cases hok
    · exact tokenUpdate_depositTimestamp_stable hu hok

/-! ## Claims C4 and C5: pendingYield and claimFaucet -/

/-- Written from the spec's words (§4.1) for comparison with the source's
`pendingYield`: `0` if deposit timestamp unset or balance is zero; otherwise
`balance * yieldRateBasisPoints * elapsedSinceLaterOf(lastYieldClaim,
depositTimestamp) / (oneHour * 10000)` with floor division. -/
def pendingYieldSpec (balance rateBps lyc dt now : Nat) : Nat :=
  if dt = 0 ∨ balance = 0 then 0
  else balance * rateBps * (now - max lyc dt) / (ONE_HOUR * BPS_DENOMINATOR)

/-- A freshly deployed gold-token ledger (deployer 9, deploy time 0,
constructor supply `1_000_000 * 10**18`). -/
def tokenDemo0 : TokenState := initTokenState 9 0 (1000000 * 10 ^ 18)

/-- The C4 setting as literally claimed: owner 1 holds the faucet amount
(100 tokens, obtained at time 0 via owner issuance, since the cooldown makes
a faucet claim at time 0 impossible), so the deposit timestamp is 0. -/
def c4CexState : TokenState :=
  tryTokenOp goldCfg tokenDemo0 0 (TokenOp.mint 9 1 (100 * 10 ^ 18))

/-- The amended C4 setting: the earliest possible faucet claim happens at
t = 3600, so the deposit timestamp is 3600 and one full hour of accrual ends
at t = 7200. -/
def c4AmendState : TokenState :=
  tryTokenOp goldCfg tokenDemo0 3600 (TokenOp.claimFaucet 1)

/-- C4 counterexample: with balance equal to the faucet amount (100 tokens,
18 decimals), yield rate 50 bps, deposit timestamp 0 and no prior yield
claim, the code returns `pendingYield = 0` after one hour — not 0.5
(`5 * 10^17`) as the claim's concrete setting asserts — because a deposit
timestamp of 0 is the code's "unset" sentinel and hits the early return. -/
theorem pendingYield_timestamp_zero_cex :
    c4CexState.balances 1 = 100 * 10 ^ 18
    ∧ c4CexState.depositTimestamp 1 = 0
    ∧ c4CexState.lastYieldClaim 1 = 0
    ∧ pendingYield goldCfg c4CexState 1 3600 = some 0
    ∧ ¬ pendingYield goldCfg c4CexState 1 3600 = some (5 * 10 ^ 17) := by
  decide

/-- C4 (amended): whenever the recorded timestamps do not lie in the future,
`pendingYield(owner)` returns exactly the spec's formula — 0 if the deposit
timestamp is unset (i.e. equal to 0, the storage sentinel) or the balance is
zero, else `balance * rate * (now - max(lastYieldClaim, depositTimestamp)) /
(3600 * 10000)` with floor division; and in the concrete setting the
earliest faucet claim is at t = 3600 (deposit timestamp 3600, a positive
value, not 0), whereupon `pendingYield` one hour later equals 0.5
(`5 * 10^17`). -/
theorem pendingYield_formula (cfg : TokenCfg) (s : TokenState) (user now : Nat)
    (hl : s.lastYieldClaim user ≤ now) (hd : s.depositTimestamp user ≤ now) :
    pendingYield cfg s user now
      = some (pendingYieldSpec (s.balances user) cfg.yieldRateBps
          (s.lastYieldClaim user) (s.depositTimestamp user) now)
    ∧ pendingYield goldCfg c4AmendState 1 7200 = some (5 * 10 ^ 17) := by
  constructor
  · unfold pendingYield pendingYieldSpec
    by_cases hz : s.depositTimestamp user = 0 ∨ s.balances user = 0
    · rw [if_pos hz, if_pos hz]
    · rw [if_neg hz, if_neg hz]
      have hmax : yieldStart s user
          = max (s.lastYieldClaim user) (s.depositTimestamp user) := by
        unfold yieldStart
        rcases le_or_lt (s.lastYieldClaim user) (s.depositTimestamp user) with hle | hlt
        · rw [if_neg (by omega), Nat.max_eq_right hle]
        · rw [if_pos hlt, Nat.max_eq_left (le_of_lt hlt)]
      rw [hmax, if_neg (by omega)]
  · decide

/-- Witness for the amended C4 theorem at a concrete input. -/
theorem pendingYield_formula_witness :
    (c4AmendState.lastYieldClaim 1 ≤ 7200 ∧ c4AmendState.depositTimestamp 1 ≤ 7200)
    ∧ (pendingYield goldCfg c4AmendState 1 7200
        = some (pendingYieldSpec (c4AmendState.balances 1) goldCfg.yieldRateBps
            (c4AmendState.lastYieldClaim 1) (c4AmendState.depositTimestamp 1) 7200)
      ∧ pendingYield goldCfg c4AmendState 1 7200 = some (5 * 10 ^ 17)) :=
  ⟨⟨by decide, by decide⟩,
    pendingYield_formula goldCfg c4AmendState 1 7200 (by decide) (by decide)⟩

/-- C5: `claimFaucet` fails with `CooldownActive` when called before the
caller's last claim plus one hour (leaving state unchanged, as a failing call
returns no state); otherwise it succeeds, increases the caller's balance by
exactly the fixed per-asset faucet amount (100 tokens for gold, 1000 for
bond, 18 implied decimals) and sets the caller's last-claim timestamp to
`now`; the cooldown is one hour for both assets. Since the characterization
holds at every state, a second claim inside the window is rejected and a
claim after the window mints exactly the fixed amount again. -/
theorem claimFaucet_spec (cfg : TokenCfg) (s : TokenState) (caller now : Nat)
    (hc : caller ≠ 0) :
    (now < s.lastFaucetClaim caller + FAUCET_COOLDOWN →
      claimFaucet cfg s caller now = Except.error Err.cooldownActive)
    ∧ (s.lastFaucetClaim caller + FAUCET_COOLDOWN ≤ now →
      ∃ s', claimFaucet cfg s caller now = Except.ok s'
        ∧ s'.balances caller = s.balances caller + cfg.faucetAmount
        ∧ s'.lastFaucetClaim caller = now)
    ∧ goldCfg.faucetAmount = 100 * 10 ^ 18
    ∧ bondCfg.faucetAmount = 1000 * 10 ^ 18
    ∧ FAUCET_COOLDOWN = 3600 := by
  refine ⟨?_, ?_, rfl, rfl, rfl⟩
  · intro hlt
    unfold claimFaucet
    rw [if_pos hlt]
  · intro hge
    cases hok : mintInternal
        { s with
          lastFaucetClaim := Function.update s.lastFaucetClaim caller now,
          depositTimestamp := Function.update s.depositTimestamp caller now }
        caller cfg.faucetAmount now with
    | error e =>
      exfalso
      unfold mintInternal at hok
      rw [if_neg hc, tokenUpdate, if_neg (by simp)] at hok
      cases hok
    | ok s' =>
      obtain ⟨hbal, hlfc, _, _, _, _⟩ := mintInternal_ok_components hok
      refine ⟨s', ?_, ?_, ?_⟩
      · unfold claimFaucet
        rw [if_neg (by omega)]
        exact hok
      · rw [hbal, Function.update_same]
      · rw [hlfc]
        exact Function.update_same caller now s.lastFaucetClaim

/-- Witness for C5 at a concrete input. -/
theorem claimFaucet_spec_witness :
    (1 : Nat) ≠ 0
    ∧ ((5000 < tokenDemo0.lastFaucetClaim 1 + FAUCET_COOLDOWN →
        claimFaucet goldCfg tokenDemo0 1 5000 = Except.error Err.cooldownActive)
      ∧ (tokenDemo0.lastFaucetClaim 1 + FAUCET_COOLDOWN ≤ 5000 →
        ∃ s', claimFaucet goldCfg tokenDemo0 1 5000 = Except.ok s'
          ∧ s'.balances 1 = tokenDemo0.balances 1 + goldCfg.faucetAmount
          ∧ s'.lastFaucetClaim 1 = 5000)
      ∧ goldCfg.faucetAmount = 100 * 10 ^ 18
      ∧ bondCfg.faucetAmount = 1000 * 10 ^ 18
      ∧ FAUCET_COOLDOWN = 3600) :=
  ⟨by decide, claimFaucet_spec goldCfg tokenDemo0 1 5000 (by decide)⟩

/-! ## Claim C6: claimYield -/

lemma mintInternal_ok (s : TokenState) (dst v now : Nat) (hdst : dst ≠ 0) :
    ∃ s', mintInternal s dst v now = Except.ok s' :=
  ⟨hookSide (creditSide (debitSide s 0 v) dst v) dst now, by
    unfold mintInternal tokenUpdate
    rw [if_neg hdst, if_neg (by simp)]⟩

lemma claimYield_eq_of_some {cfg : TokenCfg} {s : TokenState} {caller now y : Nat}
    (hy : pendingYield cfg s caller now = some y) :
    claimYield cfg s caller now =
      if y = 0 then Except.error Err.noYieldDue
      else mintInternal { s with lastYieldClaim := Function.update s.lastYieldClaim caller now }
        caller y now := by
  unfold claimYield
  rw [hy]

lemma pendingYield_isSome (cfg : TokenCfg) (s : TokenState) (user now : Nat)
    (hl : s.lastYieldClaim user ≤ now) (hd : s.depositTimestamp user ≤ now) :
    ∃ y, pendingYield cfg s user now = some y := by
  unfold pendingYield
  by_cases hz : s.depositTimestamp user = 0 ∨ s.balances user = 0
  · exact ⟨0, by rw [if_pos hz]⟩
  · have hys : ¬ now < yieldStart s user := by
      unfold yieldStart
      split <;> omega
    exact ⟨_, by rw [if_neg hz, if_neg hys]⟩

/-- C6: with the recorded timestamps not in the future (always true of
reachable on-chain states), `claimYield` fails with `NoYieldDue` if and only
if `pendingYield` is zero (a failing call returns no state, so state is
unchanged); otherwise it mints exactly `pendingYield` to the caller, sets the
caller's last-yield-claim timestamp to `now`, and immediately afterwards (at
the same time) `pendingYield` is zero, so an immediate second `claimYield`
fails with `NoYieldDue`. -/
theorem claimYield_spec (cfg : TokenCfg) (s : TokenState) (caller now : Nat)
    (hc : caller ≠ 0) (hl : s.lastYieldClaim caller ≤ now)
    (hd : s.depositTimestamp caller ≤ now) :
    (claimYield cfg s caller now = Except.error Err.noYieldDue ↔
      pendingYield cfg s caller now = some 0)
    ∧ (∀ y, pendingYield cfg s caller now = some y → y ≠ 0 →
      ∃ s', claimYield cfg s caller now = Except.ok s'
        ∧ s'.balances caller = s.balances caller + y
        ∧ s'.lastYieldClaim caller = now
        ∧ pendingYield cfg s' caller now = some 0) := by
  obtain ⟨y, hy⟩ := pendingYield_isSome cfg s caller now hl hd
  constructor
  · rw [claimYield_eq_of_some hy, hy]
    by_cases hy0 : y = 0
    · subst hy0
      simp
    · rw [if_neg hy0]
      obtain ⟨s2, hs2⟩ := mintInternal_ok
        { s with lastYieldClaim := Function.update s.lastYieldClaim caller now }
        caller y now hc
      rw [hs2]
      simp [hy0]
  · intro y' hy' hne
    have hyy : y' = y := by
      rw [hy] at hy'
      exact (Option.some.injEq _ _ ▸ hy').symm
    subst hyy
    obtain ⟨s2, hs2⟩ := mintInternal_ok
      { s with lastYieldClaim := Function.update s.lastYieldClaim caller now }
      caller y' now hc
    obtain ⟨hb, _, hyc, hdne, _, _⟩ := mintInternal_ok_components hs2
    have hz : ¬ (s.depositTimestamp caller = 0 ∨ s.balances caller = 0) := by
      intro hcontra
      unfold pendingYield at hy
      rw [if_pos hcontra] at hy
      exact hne (Option.some.injEq _ _ ▸ hy).symm
    push_neg at hz
    have hbal2 : s2.balances caller = s.balances caller + y' := by
      rw [hb, Function.update_same]
    have hdt2 : s2.depositTimestamp caller = s.depositTimestamp caller := by
      rw [hdne hz.1]
    have hlyc2 : s2.lastYieldClaim caller = now := by
      rw [hyc]
      exact Function.update_same caller now s.lastYieldClaim
    refine ⟨s2, ?_, hbal2, hlyc2, ?_⟩
    · rw [claimYield_eq_of_some hy, if_neg hne]
      exact hs2
    · have hys2 : yieldStart s2 caller = now := by
        unfold yieldStart
        rw [hlyc2, hdt2]
        split
        · rfl
        · omega
      unfold pendingYield
      rw [if_neg (by rw [hdt2, hbal2]; push_neg; exact ⟨hz.1, by omega⟩)]
      rw [if_neg (by rw [hys2]; omega)]
      rw [hys2, Nat.sub_self, Nat.mul_zero, Nat.zero_div]

/-- Witness for C6 at a concrete input (the spec's own setting, shifted to
the earliest possible faucet time). -/
theorem claimYield_spec_witness :
    ((1 : Nat) ≠ 0 ∧ c4AmendState.lastYieldClaim 1 ≤ 7200
      ∧ c4AmendState.depositTimestamp 1 ≤ 7200)
    ∧ ((claimYield goldCfg c4AmendState 1 7200 = Except.error Err.noYieldDue ↔
        pendingYield goldCfg c4AmendState 1 7200 = some 0)
      ∧ (∀ y, pendingYield goldCfg c4AmendState 1 7200 = some y → y ≠ 0 →
        ∃ s', claimYield goldCfg c4AmendState 1 7200 = Except.ok s'
          ∧ s'.balances 1 = c4AmendState.balances 1 + y
          ∧ s'.lastYieldClaim 1 = 7200
          ∧ pendingYield goldCfg s' 1 7200 = some 0)) :=
  ⟨⟨by decide, by decide, by decide⟩,
    claimYield_spec goldCfg c4AmendState 1 7200 (by decide) (by decide) (by decide)⟩

/-! ## Claim C7: the deposit timestamp -/

lemma mintInternal_depositTimestamp_stable {s s' : TokenState} {dst v now u : Nat}
    (hu : s.depositTimestamp u ≠ 0)
    (hok : mintInternal s dst v now = Except.ok s') :
    s'.depositTimestamp u = s.depositTimestamp u := by
  unfold mintInternal at hok
  split at hok
  · cases hok
  · exact tokenUpdate_depositTimestamp_stable hu hok

/-- Faucet claim one hour after deployment: deposit timestamp becomes 3600. -/
def c7s1 : TokenState := tryTokenOp goldCfg tokenDemo0 3600 (TokenOp.claimFaucet 1)

/-- A second faucet claim one hour later: deposit timestamp is overwritten. -/
def c7s2 : TokenState := tryTokenOp goldCfg c7s1 7200 (TokenOp.claimFaucet 1)

/-- C7 counterexample: owner 1 claims the faucet at t = 3600 (deposit
timestamp 3600, balance non-zero) and again at t = 7200; the second
successful `claimFaucet` overwrites the deposit timestamp to 7200 even though
the balance stayed non-zero throughout — so the deposit timestamp is not
"set exactly once and never overwritten". -/
theorem depositTimestamp_overwrite_cex :
    c7s1.depositTimestamp 1 = 3600
    ∧ c7s1.balances 1 ≠ 0
    ∧ c7s2.balances 1 ≠ 0
    ∧ c7s2.depositTimestamp 1 = 7200 := by
  decide

/-- C7 (amended): an owner's non-zero deposit timestamp is preserved by every
operation other than `claimFaucet` — mint, yield claim, transfer in or out,
transferFrom, burn, approve — but each successful `claimFaucet` overwrites
the caller's deposit timestamp to the claim time. -/
theorem depositTimestamp_amended (cfg : TokenCfg) (s : TokenState) (now u : Nat)
    (op : TokenOp) (hop : ∀ c, op ≠ TokenOp.claimFaucet c)
    (hdt : s.depositTimestamp u ≠ 0) :
    (tryTokenOp cfg s now op).depositTimestamp u = s.depositTimestamp u
    ∧ (∀ c s', claimFaucet cfg s c now = Except.ok s' →
        s'.depositTimestamp c = now) := by
  constructor
  · unfold tryTokenOp
    cases hres : applyTokenOp cfg s now op with
    | error e => rfl
    | ok s' =>
      show s'.depositTimestamp u = s.depositTimestamp u
      cases op with
      | mint caller dst value =>
        have hok : Sentinel.mint s caller dst value now = Except.ok s' := hres
        unfold Sentinel.mint at hok
        split at hok
        · cases hok
        · exact mintInternal_depositTimestamp_stable hdt hok
      | claimFaucet caller => exact absurd rfl (hop caller)
      | claimYield caller =>
        have hok : Sentinel.claimYield cfg s caller now = Except.ok s' := hres
        unfold Sentinel.claimYield at hok
        split at hok
        · cases hok
        · split at hok
          · cases hok
          · exact (fun h => (mintInternal_depositTimestamp_stable h hok).trans rfl) hdt
      | transfer caller dst value =>
        exact erc20Transfer_depositTimestamp_stable hdt hres
      | transferFrom caller src dst value =>
        have hok : Sentinel.transferFrom s caller src dst value now = Except.ok s' := hres
        unfold Sentinel.transferFrom at hok
        split at hok
        · cases hok
        · rename_i s1 hs1
          have hdt1 : s1.depositTimestamp = s.depositTimestamp :=
            spendAllowance_ok_depositTimestamp hs1
          rw [← hdt1]
          rw [← hdt1] at hdt
          exact erc20Transfer_depositTimestamp_stable hdt hok
      | burn caller value =>
        have hok : Sentinel.burn s caller value now = Except.ok s' := hres
        unfold Sentinel.burn at hok
        split at hok
        · cases hok
        · exact tokenUpdate_depositTimestamp_stable hdt hok
      | approve caller spender value =>
        have hok : Sentinel.approve s caller spender value = Except.ok s' := hres
        unfold Sentinel.approve at hok
        split at hok
        · cases hok
        · split at hok
          · cases hok
          · cases hok
            rfl
  · intro c s' hok
    unfold claimFaucet at hok
    split at hok
    · cases hok
    · obtain ⟨_, _, _, hne, hz0, _⟩ := mintInternal_ok_components hok
      by_cases hnow : now = 0
      · subst hnow
        have hdz : Function.update s.depositTimestamp c 0 c = 0 :=
          Function.update_same _ _ _
        rw [hz0 hdz, Function.update_same]
      · have hdz : Function.update s.depositTimestamp c now c ≠ 0 := by
          rw [Function.update_same]
          exact hnow
        rw [hne hdz]
        exact Function.update_same _ _ _

/-- Witness for the amended C7 theorem at a concrete input. -/
theorem depositTimestamp_amended_witness :
    ((∀ c, TokenOp.transfer 1 2 5 ≠ TokenOp.claimFaucet c)
      ∧ c7s1.depositTimestamp 1 ≠ 0)
    ∧ ((tryTokenOp goldCfg c7s1 4000 (TokenOp.transfer 1 2 5)).depositTimestamp 1
        = c7s1.depositTimestamp 1
      ∧ (∀ c s', claimFaucet goldCfg c7s1 c 4000 = Except.ok s' →
          s'.depositTimestamp c = 4000)) :=
  ⟨⟨fun _ h => TokenOp.noConfusion h, by decide⟩,
    depositTimestamp_amended goldCfg c7s1 4000 1 (TokenOp.transfer 1 2 5)
      (fun _ h => TokenOp.noConfusion h) (by decide)⟩

/-! ## Claims C1 and C2: executePayment policy gate and atomicity -/

lemma erc20Transfer_ne_policy (s : TokenState) (a b v n : Nat) :
    erc20Transfer s a b v n ≠ Except.error Err.exceedsSpendingPolicy := by
  unfold erc20Transfer tokenUpdate
  split
  · intro h
    injection h with h2
    cases h2
  · split
    · intro h
      injection h with h2
      cases h2
    · split
      · intro h
        injection h with h2
        cases h2
      · intro h
        cases h

lemma paymentDebitStep_ne_policy (sys : Sys) (user merchant amount : Nat)
    (useGold : Bool) (now : Nat) :
    paymentDebitStep sys user merchant amount useGold now
      ≠ Except.error Err.exceedsSpendingPolicy := by
  unfold paymentDebitStep
  split
  · split
    · intro h
      injection h with h2
      cases h2
    · split
      · rename_i e heq
        intro h
        injection h with h2
        subst h2
        exact erc20Transfer_ne_policy _ _ _ _ _ heq
      · intro h
        cases h
  · split
    · intro h
      injection h with h2
      cases h2
    · split
      · rename_i e heq
        intro h
        injection h with h2
        subst h2
        exact erc20Transfer_ne_policy _ _ _ _ _ heq
      · intro h
        cases h

lemma paymentFinishStep_ne_policy (mid : Sys) (user merchant amount : Nat)
    (useGold : Bool) (memoStr : String) (now : Nat) :
    paymentFinishStep mid user merchant amount useGold memoStr now
      ≠ Except.error Err.exceedsSpendingPolicy := by
  unfold paymentFinishStep
  split
  · intro h
    injection h with h2
    cases h2
  · intro h
    cases h

/-- C1: for a call by an authorized agent or the administrator,
`executePayment` fails with `ExceedsSpendingPolicy` exactly when the policy
`amount ≤ spendingAllowance ∨ (invisibleMode ∧ amount ≤
INVISIBLE_MODE_THRESHOLD)` is violated — in particular `amount =
spendingAllowance` always passes the policy gate and `amount =
spendingAllowance + 1` fails with `ExceedsSpendingPolicy` unless the
invisible-mode clause applies. The policy gate precedes the custody debit and
the token transfer, and a failing call returns no state, so no balance is
debited on a policy failure. -/
theorem executePayment_policy_iff (sys : Sys) (caller user merchant amount : Nat)
    (useGold : Bool) (memoStr : String) (now : Nat)
    (hauth : isAuthorized sys.vault caller) :
    (executePayment sys caller user merchant amount useGold memoStr now
        = Except.error Err.exceedsSpendingPolicy
      ↔ ¬ policyOk (sys.vault.accounts user) amount)
    ∧ (amount = (sys.vault.accounts user).spendingAllowance →
        executePayment sys caller user merchant amount useGold memoStr now
          ≠ Except.error Err.exceedsSpendingPolicy)
    ∧ (amount = (sys.vault.accounts user).spendingAllowance + 1 →
        ¬ ((sys.vault.accounts user).invisibleMode = true
            ∧ amount ≤ INVISIBLE_MODE_THRESHOLD) →
        executePayment sys caller user merchant amount useGold memoStr now
          = Except.error Err.exceedsSpendingPolicy) := by
  have hmain : executePayment sys caller user merchant amount useGold memoStr now
      = Except.error Err.exceedsSpendingPolicy
      ↔ ¬ policyOk (sys.vault.accounts user) amount := by
    unfold executePayment
    rw [if_neg (not_not_intro hauth)]
    by_cases hp : policyOk (sys.vault.accounts user) amount
    · rw [if_neg (not_not_intro hp)]
      constructor
      · intro hcontra
        exfalso
        cases hstep : paymentDebitStep sys user merchant amount useGold now with
        | error e =>
          rw [hstep] at hcontra
          injection hcontra with h2
          subst h2
          exact paymentDebitStep_ne_policy _ _ _ _ _ _ hstep
        | ok mid =>
          rw [hstep] at hcontra
          exact paymentFinishStep_ne_policy _ _ _ _ _ _ _ hcontra
      · intro hnp
        exact absurd hp hnp
    · rw [if_pos hp]
      simp [hp]
  refine ⟨hmain, ?_, ?_⟩
  · intro heq hcon
    rw [hmain] at hcon
    exact hcon (Or.inl (le_of_eq heq))
  · intro heq hinv
    rw [hmain]
    intro hpol
    rcases hpol with hle | hiv
    · omega
    · exact hinv hiv

/-- C2: any failing `executePayment` — policy violation, insufficient custody
balance, unauthorized caller, token-transfer failure, or locked-total
underflow — leaves the user's custody record, `totalValueLocked` and the
payment history exactly as they were before the call (the EVM's revert
semantics: the failing call's state is discarded wholesale). -/
theorem executePayment_atomicity (sys : Sys) (caller user merchant amount : Nat)
    (useGold : Bool) (memoStr : String) (now : Nat) (e : Err)
    (hfail : (executePaymentRun sys caller user merchant amount useGold memoStr now).2
      = some e) :
    (executePaymentRun sys caller user merchant amount useGold memoStr now).1.vault.accounts
        user = sys.vault.accounts user
    ∧ (executePaymentRun sys caller user merchant amount
        useGold memoStr now).1.vault.totalValueLocked = sys.vault.totalValueLocked
    ∧ (executePaymentRun sys caller user merchant amount
        useGold memoStr now).1.vault.paymentHistory = sys.vault.paymentHistory := by
  unfold executePaymentRun at hfail ⊢
  cases hres : executePayment sys caller user merchant amount useGold memoStr now with
  | ok s' =>
    rw [hres] at hfail
    cases hfail
  | error e2 =>
    exact ⟨rfl, rfl, rfl⟩

/-- An empty custody record (Solidity mapping default). -/
def acct0 : UserAccount :=
  { sGoldBalance := 0, sBondBalance := 0, spendingAllowance := 0, totalDeposited := 0,
    totalYieldEarned := 0, autoCompound := false, invisibleMode := false }

/-- A small vault: agent 5 authorized, administrator 9, all user records empty. -/
def sampleVault : VaultState :=
  { accounts := fun _ => acct0, authorizedAgents := fun a => a == 5,
    paymentHistory := [], totalValueLocked := 0, vaultOwner := 9 }

/-- An empty memo string. -/
def m0 : String := ""

/-- A small combined system: the sample vault (at address 7) plus freshly
deployed gold and bond ledgers. -/
def sampleSys : Sys :=
  { vault := sampleVault, gold := initTokenState 9 1 (1000000 * 10 ^ 18),
    bond := initTokenState 9 1 (10000000 * 10 ^ 18), vaultAddr := 7 }

/-- Witness for C1 at a concrete input. -/
theorem executePayment_policy_iff_witness :
    isAuthorized sampleSys.vault 5
    ∧ ((executePayment sampleSys 5 1 2 3 true m0 10
          = Except.error Err.exceedsSpendingPolicy
        ↔ ¬ policyOk (sampleSys.vault.accounts 1) 3)
      ∧ (3 = (sampleSys.vault.accounts 1).spendingAllowance →
          executePayment sampleSys 5 1 2 3 true m0 10
            ≠ Except.error Err.exceedsSpendingPolicy)
      ∧ (3 = (sampleSys.vault.accounts 1).spendingAllowance + 1 →
          ¬ ((sampleSys.vault.accounts 1).invisibleMode = true
              ∧ 3 ≤ INVISIBLE_MODE_THRESHOLD) →
          executePayment sampleSys 5 1 2 3 true m0 10
            = Except.error Err.exceedsSpendingPolicy)) :=
  ⟨by decide, executePayment_policy_iff sampleSys 5 1 2 3 true m0 10 (by decide)⟩

/-- Witness for C2 at a concrete input (an unauthorized caller). -/
theorem executePayment_atomicity_witness :
    (executePaymentRun sampleSys 4 1 2 3 true m0 10).2 = some Err.notAuthorized
    ∧ ((executePaymentRun sampleSys 4 1 2 3 true m0 10).1.vault.accounts 1
        = sampleSys.vault.accounts 1
      ∧ (executePaymentRun sampleSys 4 1 2 3 true m0 10).1.vault.totalValueLocked
        = sampleSys.vault.totalValueLocked
      ∧ (executePaymentRun sampleSys 4 1 2 3 true m0 10).1.vault.paymentHistory
        = sampleSys.vault.paymentHistory) :=
  ⟨by decide,
    executePayment_atomicity sampleSys 4 1 2 3 true m0 10 Err.notAuthorized (by decide)⟩

/-! ## Claims C9 and C10: harvestYield -/

/-- The state a successful `harvestYield` produces, written out. -/
def harvestResult (sys : Sys) (user gAmt bAmt : Nat) : Sys :=
  { sys with vault := { sys.vault with
      accounts := Function.update sys.vault.accounts user
        { (if (sys.vault.accounts user).autoCompound then
             { sys.vault.accounts user with
                 sGoldBalance := (sys.vault.accounts user).sGoldBalance + gAmt,
                 sBondBalance := (sys.vault.accounts user).sBondBalance + bAmt }
           else sys.vault.accounts user) with
            totalYieldEarned :=
              (if (sys.vault.accounts user).autoCompound then
                 { sys.vault.accounts user with
                     sGoldBalance := (sys.vault.accounts user).sGoldBalance + gAmt,
                     sBondBalance := (sys.vault.accounts user).sBondBalance + bAmt }
               else sys.vault.accounts user).totalYieldEarned + (gAmt + bAmt) },
      totalValueLocked :=
        if (sys.vault.accounts user).autoCompound then
          sys.vault.totalValueLocked + (gAmt + bAmt)
        else sys.vault.totalValueLocked } }

lemma harvestYield_ok (sys : Sys) (caller user gAmt bAmt : Nat)
    (hauth : isAuthorized sys.vault caller) :
    harvestYield sys caller user gAmt bAmt
      = Except.ok (harvestResult sys user gAmt bAmt) := by
  unfold harvestYield harvestResult
  rw [if_neg (not_not_intro hauth)]

/-- C9: for an authorized caller, `harvestYield` always succeeds; if the
user's auto-compound flag is set, the user's custodied gold and bond balances
grow by the respective amounts and `totalValueLocked` grows by their sum;
`totalYieldEarned` grows by the sum regardless of the flag; and no other
field of the user's custody record changes (the full record equalities
below pin every field). -/
theorem harvestYield_effects (sys : Sys) (caller user gAmt bAmt : Nat)
    (hauth : isAuthorized sys.vault caller) :
    ∃ s', harvestYield sys caller user gAmt bAmt = Except.ok s'
      ∧ ((sys.vault.accounts user).autoCompound = true →
          s'.vault.accounts user =
            { sys.vault.accounts user with
                sGoldBalance := (sys.vault.accounts user).sGoldBalance + gAmt,
                sBondBalance := (sys.vault.accounts user).sBondBalance + bAmt,
                totalYieldEarned :=
                  (sys.vault.accounts user).totalYieldEarned + (gAmt + bAmt) }
          ∧ s'.vault.totalValueLocked = sys.vault.totalValueLocked + (gAmt + bAmt))
      ∧ ((sys.vault.accounts user).autoCompound = false →
          s'.vault.accounts user =
            { sys.vault.accounts user with
                totalYieldEarned :=
                  (sys.vault.accounts user).totalYieldEarned + (gAmt + bAmt) }
          ∧ s'.vault.totalValueLocked = sys.vault.totalValueLocked)
      ∧ (∀ other, other ≠ user →
          s'.vault.accounts other = sys.vault.accounts other) := by
  refine ⟨harvestResult sys user gAmt bAmt,
    harvestYield_ok sys caller user gAmt bAmt hauth, ?_, ?_, ?_⟩
  · intro hac
    unfold harvestResult
    constructor
    · show Function.update sys.vault.accounts user _ user = _
      rw [Function.update_same]
      simp [hac]
    · show (if (sys.vault.accounts user).autoCompound
          then sys.vault.totalValueLocked + (gAmt + bAmt)
          else sys.vault.totalValueLocked) = sys.vault.totalValueLocked + (gAmt + bAmt)
      rw [hac]
      simp
  · intro hac
    unfold harvestResult
    constructor
    · show Function.update sys.vault.accounts user _ user = _
      rw [Function.update_same]
      simp [hac]
    · show (if (sys.vault.accounts user).autoCompound
          then sys.vault.totalValueLocked + (gAmt + bAmt)
          else sys.vault.totalValueLocked) = sys.vault.totalValueLocked
      rw [hac]
      simp
  · intro other hother
    unfold harvestResult
    show Function.update sys.vault.accounts user _ other = _
    rw [Function.update_noteq hother]

/-- C10: `harvestYield` performs no token-ledger call at all — both token
ledger states (hence every token balance, including the vault's own token
accounts) are literally unchanged; under auto-compound the custody balances
and `totalValueLocked` grow with no corresponding tokens entering the vault's
token accounts, and without auto-compound the supplied amounts are recorded
only in `totalYieldEarned`, credited to no balance anywhere. -/
theorem harvestYield_token_frame (sys : Sys) (caller user gAmt bAmt : Nat)
    (hauth : isAuthorized sys.vault caller) :
    ∃ s', harvestYield sys caller user gAmt bAmt = Except.ok s'
      ∧ s'.gold = sys.gold
      ∧ s'.bond = sys.bond
      ∧ ((sys.vault.accounts user).autoCompound = true →
          (s'.vault.accounts user).sGoldBalance
              = (sys.vault.accounts user).sGoldBalance + gAmt
          ∧ (s'.vault.accounts user).sBondBalance
              = (sys.vault.accounts user).sBondBalance + bAmt
          ∧ s'.vault.totalValueLocked = sys.vault.totalValueLocked + (gAmt + bAmt)
          ∧ s'.gold.balances s'.vaultAddr = sys.gold.balances sys.vaultAddr
          ∧ s'.bond.balances s'.vaultAddr = sys.bond.balances sys.vaultAddr)
      ∧ ((sys.vault.accounts user).autoCompound = false →
          (s'.vault.accounts user).sGoldBalance = (sys.vault.accounts user).sGoldBalance
          ∧ (s'.vault.accounts user).sBondBalance = (sys.vault.accounts user).sBondBalance
          ∧ s'.vault.totalValueLocked = sys.vault.totalValueLocked
          ∧ (s'.vault.accounts user).totalYieldEarned
              = (sys.vault.accounts user).totalYieldEarned + (gAmt + bAmt)) := by
  refine ⟨harvestResult sys user gAmt bAmt,
    harvestYield_ok sys caller user gAmt bAmt hauth, rfl, rfl, ?_, ?_⟩
  · intro hac
    unfold harvestResult
    refine ⟨?_, ?_, ?_, rfl, rfl⟩
    · show (Function.update sys.vault.accounts user _ user).sGoldBalance = _
      rw [Function.update_same]
      simp [hac]
    · show (Function.update sys.vault.accounts user _ user).sBondBalance = _
      rw [Function.update_same]
      simp [hac]
    · show (if (sys.vault.accounts user).autoCompound
          then sys.vault.totalValueLocked + (gAmt + bAmt)
          else sys.vault.totalValueLocked) = sys.vault.totalValueLocked + (gAmt + bAmt)
      rw [hac]
      simp
  · intro hac
    unfold harvestResult
    refine ⟨?_, ?_, ?_, ?_⟩
    · show (Function.update sys.vault.accounts user _ user).sGoldBalance = _
      rw [Function.update_same]
      simp [hac]
    · show (Function.update sys.vault.accounts user _ user).sBondBalance = _
      rw [Function.update_same]
      simp [hac]
    · show (if (sys.vault.accounts user).autoCompound
          then sys.vault.totalValueLocked + (gAmt + bAmt)
          else sys.vault.totalValueLocked) = sys.vault.totalValueLocked
      rw [hac]
      simp
    · show (Function.update sys.vault.accounts user _ user).totalYieldEarned = _
      rw [Function.update_same]
      simp [hac]

/-- Witness for C9 at a concrete input. -/
theorem harvestYield_effects_witness :
    isAuthorized sampleSys.vault 5
    ∧ (∃ s', harvestYield sampleSys 5 1 20 30 = Except.ok s'
      ∧ ((sampleSys.vault.accounts 1).autoCompound = true →
          s'.vault.accounts 1 =
            { sampleSys.vault.accounts 1 with
                sGoldBalance := (sampleSys.vault.accounts 1).sGoldBalance + 20,
                sBondBalance := (sampleSys.vault.accounts 1).sBondBalance + 30,
                totalYieldEarned :=
                  (sampleSys.vault.accounts 1).totalYieldEarned + (20 + 30) }
          ∧ s'.vault.totalValueLocked = sampleSys.vault.totalValueLocked + (20 + 30))
      ∧ ((sampleSys.vault.accounts 1).autoCompound = false →
          s'.vault.accounts 1 =
            { sampleSys.vault.accounts 1 with
                totalYieldEarned :=
                  (sampleSys.vault.accounts 1).totalYieldEarned + (20 + 30) }
          ∧ s'.vault.totalValueLocked = sampleSys.vault.totalValueLocked)
      ∧ (∀ other, other ≠ 1 →
          s'.vault.accounts other = sampleSys.vault.accounts other)) :=
  ⟨by decide, harvestYield_effects sampleSys 5 1 20 30 (by decide)⟩

/-- Witness for C10 at a concrete input. -/
theorem harvestYield_token_frame_witness :
    isAuthorized sampleSys.vault 9
    ∧ (∃ s', harvestYield sampleSys 9 1 20 30 = Except.ok s'
      ∧ s'.gold = sampleSys.gold
      ∧ s'.bond = sampleSys.bond
      ∧ ((sampleSys.vault.accounts 1).autoCompound = true →
          (s'.vault.accounts 1).sGoldBalance
              = (sampleSys.vault.accounts 1).sGoldBalance + 20
          ∧ (s'.vault.accounts 1).sBondBalance
              = (sampleSys.vault.accounts 1).sBondBalance + 30
          ∧ s'.vault.totalValueLocked = sampleSys.vault.totalValueLocked + (20 + 30)
          ∧ s'.gold.balances s'.vaultAddr = sampleSys.gold.balances sampleSys.vaultAddr
          ∧ s'.bond.balances s'.vaultAddr = sampleSys.bond.balances sampleSys.vaultAddr)
      ∧ ((sampleSys.vault.accounts 1).autoCompound = false →
          (s'.vault.accounts 1).sGoldBalance = (sampleSys.vault.accounts 1).sGoldBalance
          ∧ (s'.vault.accounts 1).sBondBalance
              = (sampleSys.vault.accounts 1).sBondBalance
          ∧ s'.vault.totalValueLocked = sampleSys.vault.totalValueLocked
          ∧ (s'.vault.accounts 1).totalYieldEarned
              = (sampleSys.vault.accounts 1).totalYieldEarned + (20 + 30))) :=
  ⟨by decide, harvestYield_token_frame sampleSys 9 1 20 30 (by decide)⟩

/-! ## Claim C8: deposit/withdraw round trip -/

lemma spendAllowance_ok_balances {s s' : TokenState} {a b v : Nat}
    (hok : spendAllowance s a b v = Except.ok s') : s'.balances = s.balances := by
  unfold spendAllowance at hok
  split at hok
  · cases hok
    rfl
  · split at hok
    · cases hok
    · cases hok
      rfl

lemma erc20Transfer_ok_components {s s' : TokenState} {a b v n : Nat}
    (hok : erc20Transfer s a b v n = Except.ok s') :
    a ≠ 0 ∧ b ≠ 0 ∧ v ≤ s.balances a
    ∧ s'.balances = Function.update (Function.update s.balances a (s.balances a - v)) b
        (Function.update s.balances a (s.balances a - v) b + v) := by
  unfold erc20Transfer at hok
  split at hok
  · cases hok
  · rename_i ha
    split at hok
    · cases hok
    · rename_i hb
      unfold tokenUpdate at hok
      split at hok
      · cases hok
      · rename_i hguard
        cases hok
        refine ⟨ha, hb, ?_, ?_⟩
        · by_contra hlt
          exact hguard ⟨ha, by omega⟩
        · rw [hookSide_balances, creditSide_nonzero _ _ _ hb, debitSide_nonzero _ _ _ ha]

lemma erc20Transfer_ok_of (s : TokenState) (a b v n : Nat)
    (ha : a ≠ 0) (hb : b ≠ 0) (hv : v ≤ s.balances a) :
    erc20Transfer s a b v n
      = Except.ok (hookSide (creditSide (debitSide s a v) b v) b n) := by
  unfold erc20Transfer tokenUpdate
  rw [if_neg ha, if_neg hb, if_neg (by push_neg; intro _; omega)]

lemma dest_has_amount (G : Nat → Nat) (u w amount : Nat) :
    amount ≤ Function.update (Function.update G u (G u - amount)) w
      (Function.update G u (G u - amount) w + amount) w := by
  rw [Function.update_same]
  omega

lemma roundtrip_balance (G s1g g2 : Nat → Nat) (u w amount : Nat)
    (hle : amount ≤ G u)
    (h1 : s1g = Function.update (Function.update G u (G u - amount)) w
      (Function.update G u (G u - amount) w + amount))
    (h2 : g2 = Function.update (Function.update s1g w (s1g w - amount)) u
      (Function.update s1g w (s1g w - amount) u + amount)) :
    g2 u = G u := by
  subst h1
  subst h2
  rcases eq_or_ne u w with rfl | hne
  · simp only [Function.update_same]
    omega
  · simp only [Function.update_same, Function.update_noteq hne,
      Function.update_noteq hne.symm]
    omega

lemma depositGold_ok_shape {sys s1 : Sys} {user amount now : Nat}
    (hdep : depositGold sys user amount now = Except.ok s1) :
    (s1.vault.accounts user).sGoldBalance
        = (sys.vault.accounts user).sGoldBalance + amount
    ∧ s1.vault.totalValueLocked = sys.vault.totalValueLocked + amount
    ∧ s1.vaultAddr = sys.vaultAddr
    ∧ user ≠ 0 ∧ sys.vaultAddr ≠ 0
    ∧ amount ≤ sys.gold.balances user
    ∧ s1.gold.balances = Function.update
        (Function.update sys.gold.balances user (sys.gold.balances user - amount))
        sys.vaultAddr
        (Function.update sys.gold.balances user (sys.gold.balances user - amount)
          sys.vaultAddr + amount) := by
  unfold depositGold at hdep
  split at hdep
  · cases hdep
  · split at hdep
    · cases hdep
    · rename_i g hTF
      cases hdep
      unfold transferFrom at hTF
      split at hTF
      · cases hTF
      · rename_i sA hSA
        have hsab : sA.balances = sys.gold.balances := spendAllowance_ok_balances hSA
        obtain ⟨hu0, hw0, hle, hgbal⟩ := erc20Transfer_ok_components hTF
        rw [hsab] at hle hgbal
        refine ⟨?_, rfl, rfl, hu0, hw0, hle, hgbal⟩
        simp [Function.update_same]

lemma depositBond_ok_shape {sys s1 : Sys} {user amount now : Nat}
    (hdep : depositBond sys user amount now = Except.ok s1) :
    (s1.vault.accounts user).sBondBalance
        = (sys.vault.accounts user).sBondBalance + amount
    ∧ s1.vault.totalValueLocked = sys.vault.totalValueLocked + amount
    ∧ s1.vaultAddr = sys.vaultAddr
    ∧ user ≠ 0 ∧ sys.vaultAddr ≠ 0
    ∧ amount ≤ sys.bond.balances user
    ∧ s1.bond.balances = Function.update
        (Function.update sys.bond.balances user (sys.bond.balances user - amount))
        sys.vaultAddr
        (Function.update sys.bond.balances user (sys.bond.balances user - amount)
          sys.vaultAddr + amount) := by
  unfold depositBond at hdep
  split at hdep
  · cases hdep
  · split at hdep
    · cases hdep
    · rename_i b hTF
      cases hdep
      unfold transferFrom at hTF
      split at hTF
      · cases hTF
      · rename_i sA hSA
        have hsab : sA.balances = sys.bond.balances := spendAllowance_ok_balances hSA
        obtain ⟨hu0, hw0, hle, hbbal⟩ := erc20Transfer_ok_components hTF
        rw [hsab] at hle hbbal
        refine ⟨?_, rfl, rfl, hu0, hw0, hle, hbbal⟩
        simp [Function.update_same]

/-- C8: for every user, asset, and amount X such that `depositAsset` (here
`depositGold`/`depositBond`) succeeds — which requires X > 0 and the user's
token-ledger balance (and allowance to the vault) to cover X — the
immediately following `withdrawAsset` of the same X always succeeds and
returns the user's custody balance for that asset, the aggregate
`totalValueLocked`, and the user's token-ledger balance to their exact
pre-deposit values. -/
theorem deposit_withdraw_roundtrip (sys : Sys) (user amount now : Nat) :
    (∀ s1, depositGold sys user amount now = Except.ok s1 →
      ∃ s2, withdrawGold s1 user amount now = Except.ok s2
        ∧ (s2.vault.accounts user).sGoldBalance = (sys.vault.accounts user).sGoldBalance
        ∧ s2.vault.totalValueLocked = sys.vault.totalValueLocked
        ∧ s2.gold.balances user = sys.gold.balances user)
    ∧ (∀ s1, depositBond sys user amount now = Except.ok s1 →
      ∃ s2, withdrawBond s1 user amount now = Except.ok s2
        ∧ (s2.vault.accounts user).sBondBalance = (sys.vault.accounts user).sBondBalance
        ∧ s2.vault.totalValueLocked = sys.vault.totalValueLocked
        ∧ s2.bond.balances user = sys.bond.balances user) := by
  constructor
  · intro s1 hdep
    obtain ⟨hacct, htvl, hva, hu0, hw0, hle, hgb⟩ := depositGold_ok_shape hdep
    unfold withdrawGold
    rw [if_neg (by rw [hacct]; omega), if_neg (by rw [htvl]; omega), hva,
      erc20Transfer_ok_of s1.gold sys.vaultAddr user amount now hw0 hu0
        (by rw [hgb]; exact dest_has_amount sys.gold.balances user sys.vaultAddr amount)]
    refine ⟨_, rfl, ?_, ?_, ?_⟩
    · show (Function.update s1.vault.accounts user
        { s1.vault.accounts user with
            sGoldBalance := (s1.vault.accounts user).sGoldBalance - amount } user).sGoldBalance
        = (sys.vault.accounts user).sGoldBalance
      rw [Function.update_same]
      show (s1.vault.accounts user).sGoldBalance - amount
        = (sys.vault.accounts user).sGoldBalance
      rw [hacct]
      omega
    · show s1.vault.totalValueLocked - amount = sys.vault.totalValueLocked
      rw [htvl]
      omega
    · show (hookSide (creditSide (debitSide s1.gold sys.vaultAddr amount) user amount)
        user now).balances user = sys.gold.balances user
      rw [hookSide_balances, creditSide_nonzero _ _ _ hu0, debitSide_nonzero _ _ _ hw0]
      exact roundtrip_balance sys.gold.balances s1.gold.balances _ user sys.vaultAddr
        amount hle hgb rfl
  · intro s1 hdep
    obtain ⟨hacct, htvl, hva, hu0, hw0, hle, hbb⟩ := depositBond_ok_shape hdep
    unfold withdrawBond
    rw [if_neg (by rw [hacct]; omega), if_neg (by rw [htvl]; omega), hva,
      erc20Transfer_ok_of s1.bond sys.vaultAddr user amount now hw0 hu0
        (by rw [hbb]; exact dest_has_amount sys.bond.balances user sys.vaultAddr amount)]
    refine ⟨_, rfl, ?_, ?_, ?_⟩
    · show (Function.update s1.vault.accounts user
        { s1.vault.accounts user with
            sBondBalance := (s1.vault.accounts user).sBondBalance - amount } user).sBondBalance
        = (sys.vault.accounts user).sBondBalance
      rw [Function.update_same]
      show (s1.vault.accounts user).sBondBalance - amount
        = (sys.vault.accounts user).sBondBalance
      rw [hacct]
      omega
    · show s1.vault.totalValueLocked - amount = sys.vault.totalValueLocked
      rw [htvl]
      omega
    · show (hookSide (creditSide (debitSide s1.bond sys.vaultAddr amount) user amount)
        user now).balances user = sys.bond.balances user
      rw [hookSide_balances, creditSide_nonzero _ _ _ hu0, debitSide_nonzero _ _ _ hw0]
      exact roundtrip_balance sys.bond.balances s1.bond.balances _ user sys.vaultAddr
        amount hle hbb rfl

/-- A gold ledger where user 1 holds 50 wei-units and has approved the vault
(address 7) for 50. -/
def rtGold : TokenState :=
  tryTokenOp goldCfg
    (tryTokenOp goldCfg (initTokenState 9 1 (10 ^ 24)) 1 (TokenOp.mint 9 1 50))
    1 (TokenOp.approve 1 7 50)

/-- Same preparation on the bond ledger. -/
def rtBond : TokenState :=
  tryTokenOp bondCfg
    (tryTokenOp bondCfg (initTokenState 9 1 (10 ^ 25)) 1 (TokenOp.mint 9 1 50))
    1 (TokenOp.approve 1 7 50)

/-- The round-trip demo system. -/
def rtSys : Sys :=
  { vault := sampleVault, gold := rtGold, bond := rtBond, vaultAddr := 7 }

/-- The state after user 1 deposits 20 gold units into the vault. -/
def rtS1g : Sys :=
  match depositGold rtSys 1 20 5 with
  | Except.ok s => s
  | Except.error _ => rtSys

/-- Witness for C8 at a concrete input (gold side). -/
theorem deposit_withdraw_roundtrip_witness :
    depositGold rtSys 1 20 5 = Except.ok rtS1g
    ∧ (∃ s2, withdrawGold rtS1g 1 20 5 = Except.ok s2
      ∧ (s2.vault.accounts 1).sGoldBalance = (rtSys.vault.accounts 1).sGoldBalance
      ∧ s2.vault.totalValueLocked = rtSys.vault.totalValueLocked
      ∧ s2.gold.balances 1 = rtSys.gold.balances 1) :=
  ⟨rfl, (deposit_withdraw_roundtrip rtSys 1 20 5).1 rtS1g rfl⟩

end Sentinel
